import Mathlib

/-!
Verification development for the NFL wins-pool worker
(`src/worker/worker.js`). The JavaScript source is embedded shallowly:

* JSON objects become structures whose fields are `Option`-typed where the
  provider may omit them;
* JavaScript truthiness (`""`, `0`, `null`/`undefined` are falsy) is made
  explicit through the `strTruthy` / `numTruthy` / `jsOr*` helpers, so that
  expressions such as `a || b` are translated exactly;
* machine numbers are modelled as `Int` (all arithmetic in the worker is
  small-integer arithmetic: win counts, millisecond timestamps, week numbers);
* the two host primitives `Date.parse` and the `Intl` timestamp formatter are
  taken as parameters (`parse : String → Int`, `ct : Int → String`), since the
  worker only pipes their outputs around;
* `Array.prototype.sort` with a comparator `cmp` is modelled as the stable
  `List.mergeSort` with the relation `fun a b => cmp a b ≤ 0`, matching the
  ECMAScript (ES2019+) stable-sort contract for consistent comparators;
* `String.prototype.localeCompare` is modelled as code-point string
  comparison, the reference collation for this development.
-/

/-! ## JavaScript value helpers -/

/-- Truthiness of an optional string: `null`/`undefined` and `""` are falsy. -/
def strTruthy : Option String → Option String
  | some s => if s = "" then none else some s
  | none => none

/-- The JS expression `a || b` where `a` is an optional string and `b` an
optional string: returns `a` when `a` is truthy, otherwise `b` unchanged. -/
def jsOrStr (a b : Option String) : Option String :=
  match strTruthy a with
  | some s => some s
  | none => b

/-- The JS expression `a || d` where `a` is an optional string and `d` a
string literal default. -/
def jsOrStrD (a : Option String) (d : String) : String :=
  match strTruthy a with
  | some s => s
  | none => d

/-- Truthiness of an optional number: `0`, `null` and `undefined` are falsy
(the JS pattern `x || null`). -/
def numTruthy : Option Int → Option Int
  | some n => if n = 0 then none else some n
  | none => none

/-- The JS expression `a || b` on optional values whose presence alone decides
truthiness (arrays and objects are always truthy when present). -/
def jsOrOpt {α : Type} (a b : Option α) : Option α :=
  match a with
  | some x => some x
  | none => b

/-- The JS expression `x || y` on numbers inside the sort comparators:
`0` is falsy, every other number is truthy. -/
def jsOrInt (x y : Int) : Int :=
  if x = 0 then y else x

/-- Sign-valued code-point comparison of strings, the model of
`String.prototype.localeCompare`. -/
def strCmpInt (a b : String) : Int :=
  if a < b then -1 else if b < a then 1 else 0

/-- Sentinel integer standing for the JS `NaN` produced by `Number(s)` on a
non-numeric string. In the worker a `NaN` week number is only ever compared
with `===` against the (nonnegative) numbers of digit-string calendar labels,
and such a comparison is false both in JS and for this sentinel. -/
def jsNaN : Int := -(2 ^ 60)

/-- Decimal value of a digit-character list. -/
def digitsVal (l : List Char) : Nat :=
  l.foldl (fun acc c => acc * 10 + (c.toNat - 48)) 0

/-- The JS conversion `Number(s)` restricted to the shapes the worker meets:
optionally signed decimal integer strings (surrounded by whitespace) and the
all-whitespace string (which converts to 0); every other string maps to the
`NaN` sentinel. Character lists are used so the definition reduces in the
kernel. -/
def jsStringToNumber (s : String) : Int :=
  let t := ((s.toList.dropWhile (fun c => c.isWhitespace)).reverse.dropWhile
      (fun c => c.isWhitespace)).reverse
  if t = [] then 0
  else if t.all (fun c => c.isDigit) then (digitsVal t : Int)
  else
    match t with
    | c :: rest =>
      if (c = '-' ∨ c = '+') ∧ rest ≠ [] ∧ rest.all (fun c => c.isDigit) then
        if c = '-' then -(digitsVal rest : Int) else (digitsVal rest : Int)
      else jsNaN
    | [] => jsNaN

/-! ## Upstream data model (ESPN scoreboard JSON, fields the worker reads) -/

/-- The slice of an ESPN `team` object read by `normalizeTeamName` and the win
aggregation. Every field may be absent. -/
structure Team where
  shortDisplayName : Option String
  name : Option String
  abbreviation : Option String
deriving DecidableEq

/-- One entry of `competitions[i].competitors`. -/
structure Competitor where
  homeAway : Option String
  winner : Option Bool
  team : Option Team
deriving DecidableEq

/-- One entry of `events[i].competitions`. -/
structure Competition where
  date : Option String
  competitors : List Competitor
deriving DecidableEq

/-- One entry of the scoreboard `events` list. -/
structure Event where
  date : Option String
  competitions : List Competition
deriving DecidableEq

/-- One calendar entry: `label`, `startDate`, `endDate` as the provider sends
them (any may be absent). -/
structure CalendarEntry where
  label : Option String
  startDate : Option String
  endDate : Option String
deriving DecidableEq

/-- The top-level `week` object of the scoreboard root. -/
structure WeekInfo where
  number : Option Int
deriving DecidableEq

/-- The slice of `leagues[i]` the worker reads. The provider exposes the
calendar entries at one of two shapes; each shape is an optional field. -/
structure League where
  /-- Entries at the shape `calendar[0].entries`. -/
  calendarHeadEntries : Option (List CalendarEntry)
  /-- Entries at the shape `calendar.entries`. -/
  calendarEntries : Option (List CalendarEntry)
deriving DecidableEq

/-- The scoreboard root document. -/
structure ScoreboardRoot where
  leagues : List League
  week : Option WeekInfo
  events : List Event
deriving DecidableEq

/-- The upstream provider: the scoreboard root plus the per-date-range
scoreboard, keyed by the `YYYYMMDD-YYYYMMDD` query string the worker builds. -/
structure Upstream where
  scoreboard : ScoreboardRoot
  scoreboardByDates : String → ScoreboardRoot

/-! ## Ownership configuration and `buildTeamToOwner` -/

/-- The pool configuration JSON (`owners` keeps JS object insertion order). -/
structure OwnershipConfig where
  season : Option Int
  timezone : Option String
  owners : List (String × List String)
  unowned : List String
deriving DecidableEq

/-- A JS object used as a string-keyed map. -/
abbrev OwnerMap := String → Option String

/-- The JS assignment `map[k] = v`. -/
def mapSet (m : OwnerMap) (k v : String) : OwnerMap :=
  fun x => if x = k then some v else m x

/-- The inner loop of `buildTeamToOwner` for one `[owner, teams]` entry:
`for (const t of teams) map[t] = owner`. -/
def ownersStep (m : OwnerMap) (p : String × List String) : OwnerMap :=
  p.2.foldl (fun m t => mapSet m t p.1) m

/-- First loop of `buildTeamToOwner` (worker.js lines 44-46): flatten
`config.owners` into a team-name-to-owner map, later entries overwriting. -/
def ownersFlattenMap (owners : List (String × List String)) : OwnerMap :=
  owners.foldl ownersStep (fun _ => none)

/-- Second loop of `buildTeamToOwner` (worker.js lines 47-49): every team in
`config.unowned` that is not yet a key is mapped to the sentinel
`"Unowned"` (the JS guard is `!(t in map)`, a key-presence test). -/
def fillUnowned (m : OwnerMap) (unowned : List String) : OwnerMap :=
  unowned.foldl (fun m t => if (m t).isSome then m else mapSet m t "Unowned") m

/-- `buildTeamToOwner` (worker.js lines 42-51). -/
def buildTeamToOwner (config : OwnershipConfig) : OwnerMap :=
  fillUnowned (ownersFlattenMap config.owners) config.unowned

/-! ## Week resolver (`getRegularSeasonWeekEntries`) -/

/-- The regex test `String(e.label).match(/^\d+$/)`. -/
def isDigitString (s : String) : Bool :=
  decide (s ≠ "") && s.toList.all (fun c => c.isDigit)

/-- The calendar filter predicate (worker.js line 57):
`e?.label && String(e.label).match(/^\d+$/) && e?.startDate && e?.endDate`. -/
def keepEntry (e : CalendarEntry) : Bool :=
  match strTruthy e.label with
  | some s => isDigitString s && (strTruthy e.startDate).isSome && (strTruthy e.endDate).isSome
  | none => false

/-- Result of `getRegularSeasonWeekEntries`. -/
structure WeekEntriesResult where
  regularEntries : List CalendarEntry
  currentWeek : Option Int
deriving DecidableEq

/-- `getRegularSeasonWeekEntries` (worker.js lines 53-61), as a function of the
already-fetched scoreboard root. The calendar is located at
`leagues[0].calendar[0].entries`, falling back to `leagues[0].calendar.entries`,
falling back to `[]`; kept entries are capped at 18; `currentWeek` is
`root?.week?.number || null`. -/
def getRegularSeasonWeekEntries (root : ScoreboardRoot) : WeekEntriesResult :=
  let fromArrayShape := (root.leagues.head?).bind League.calendarHeadEntries
  let fromObjectShape := (root.leagues.head?).bind League.calendarEntries
  let calendar := (jsOrOpt fromArrayShape fromObjectShape).getD []
  { regularEntries := (calendar.filter keepEntry).take 18
    currentWeek := numTruthy (root.week.bind WeekInfo.number) }

/-! ## Week grid builder (`normalizeTeamName`, `fetchWeekGrid`) -/

/-- `normalizeTeamName` (worker.js lines 63-66):
`team?.shortDisplayName || team?.name || team?.abbreviation || ""`. -/
def normalizeTeamName (t : Option Team) : String :=
  jsOrStrD
    (jsOrStr (jsOrStr (t.bind Team.shortDisplayName) (t.bind Team.name))
      (t.bind Team.abbreviation)) ""

/-- One game row pushed onto `games` (worker.js lines 103-111). -/
structure GameRow where
  kickoff_utc : Option String
  away : String
  home : String
  winner : Option String
  awayOwner : String
  homeOwner : String
  winningOwner : String
deriving DecidableEq

/-- The body of the per-event loop of `fetchWeekGrid` (worker.js lines
82-112): the row pushed for this event, or `none` when the event is skipped
(no competition, a missing side, or both sides owned by `"Unowned"`). -/
def rowOfEvent (teamToOwner : OwnerMap) (ev : Event) : Option GameRow :=
  match ev.competitions.head? with
  | none => none
  | some comp =>
    match comp.competitors.find? (fun c => c.homeAway == some "away"),
          comp.competitors.find? (fun c => c.homeAway == some "home") with
    | some away, some home =>
      let awayName := normalizeTeamName away.team
      let homeName := normalizeTeamName home.team
      let awayOwner := jsOrStrD (teamToOwner awayName) "-"
      let homeOwner := jsOrStrD (teamToOwner homeName) "-"
      let winnerC := comp.competitors.find? (fun c => c.winner == some true)
      let winnerName := winnerC.map (fun c => normalizeTeamName c.team)
      let winningOwner :=
        match strTruthy winnerName with
        | some n => jsOrStrD (teamToOwner n) "-"
        | none => "-"
      if awayOwner = "Unowned" ∧ homeOwner = "Unowned" then none
      else some
        { kickoff_utc := jsOrStr (jsOrStr comp.date ev.date) none
          away := awayName
          home := homeName
          winner := winnerName
          awayOwner := awayOwner
          homeOwner := homeOwner
          winningOwner := winningOwner }
    | _, _ => none

/-- The sort key `a.kickoff_utc ? Date.parse(a.kickoff_utc) : 0`
(worker.js lines 116-117), with `Date.parse` as the parameter `parse`. -/
def rowTs (parse : String → Int) (r : GameRow) : Int :=
  match strTruthy r.kickoff_utc with
  | some s => parse s
  | none => 0

/-- The sort comparator (worker.js line 118):
`ta - tb || a.away.localeCompare(b.away) || a.home.localeCompare(b.home)`. -/
def gameCmp (parse : String → Int) (a b : GameRow) : Int :=
  jsOrInt (jsOrInt (rowTs parse a - rowTs parse b) (strCmpInt a.away b.away))
    (strCmpInt a.home b.home)

/-- Nonpositive-comparator relation handed to the stable sort. -/
def gameLe (parse : String → Int) (a b : GameRow) : Bool :=
  decide (gameCmp parse a b ≤ 0)

/-- `e.startDate.slice(0,10).replaceAll("-","")` (worker.js lines 75-76). -/
def compactDate (s : String) : String :=
  ((s.toList.take 10).filter (fun c => c ≠ '-')).asString

/-- The `dates=` query key `start + "-" + end` built from a calendar entry. -/
def dateRangeKey (e : CalendarEntry) : String :=
  compactDate (e.startDate.getD "") ++ "-" ++ compactDate (e.endDate.getD "")

/-- `Number(e.label)` as used by the week lookup (worker.js line 71). -/
def entryLabelNumber (e : CalendarEntry) : Int :=
  match e.label with
  | some s => jsStringToNumber s
  | none => jsNaN

/-- The week-grid result object. The three trailing fields are present only
when a calendar window matched (worker.js lines 72-73 and 121). -/
structure WeekGrid where
  week : Int
  currentWeek : Option Int
  games : List GameRow
  week_label : Option String
  startDate : Option String
  endDate : Option String
deriving DecidableEq

/-- The week number resolved on worker.js line 70:
`Number(weekNumber || currentWeek || 1)` (the parameter is the raw string, so
`Number` acts on it; a truthy `currentWeek` is already a number). -/
def resolvedWeek (u : Upstream) (weekParam : Option String) : Int :=
  match strTruthy weekParam with
  | some s => jsStringToNumber s
  | none =>
    match (getRegularSeasonWeekEntries u.scoreboard).currentWeek with
    | some n => n
    | none => 1

/-- The window lookup on worker.js line 71:
`regularEntries.find(e => Number(e.label) === week)`. -/
def resolvedEntry (u : Upstream) (weekParam : Option String) : Option CalendarEntry :=
  (getRegularSeasonWeekEntries u.scoreboard).regularEntries.find?
    (fun e => entryLabelNumber e == resolvedWeek u weekParam)

/-- `fetchWeekGrid` (worker.js lines 68-122), as a function of the upstream
data, the raw `week` query parameter (`null` or its string value) and the
pool configuration. -/
def fetchWeekGrid (parse : String → Int) (u : Upstream) (weekParam : Option String)
    (config : OwnershipConfig) : WeekGrid :=
  let week := resolvedWeek u weekParam
  let currentWeek := (getRegularSeasonWeekEntries u.scoreboard).currentWeek
  match resolvedEntry u weekParam with
  | none =>
    { week := week, currentWeek := currentWeek, games := []
      week_label := none, startDate := none, endDate := none }
  | some entry =>
    let weekData := u.scoreboardByDates (dateRangeKey entry)
    let teamToOwner := buildTeamToOwner config
    let games := weekData.events.filterMap (rowOfEvent teamToOwner)
    { week := week, currentWeek := currentWeek
      games := games.mergeSort (gameLe parse)
      week_label := entry.label, startDate := entry.startDate, endDate := entry.endDate }

/-! ## Win aggregator (`NAME_TO_ABBR`, `computeTeamWinsForSeason`) -/

/-- The static fallback table (worker.js lines 28-34). -/
def NAME_TO_ABBR : List (String × String) :=
  [("49ers", "SF"), ("Bears", "CHI"), ("Bengals", "CIN"), ("Bills", "BUF"),
   ("Broncos", "DEN"), ("Browns", "CLE"), ("Buccaneers", "TB"), ("Cardinals", "ARI"),
   ("Chargers", "LAC"), ("Chiefs", "KC"), ("Colts", "IND"), ("Commanders", "WSH"),
   ("Cowboys", "DAL"), ("Dolphins", "MIA"), ("Eagles", "PHI"), ("Falcons", "ATL"),
   ("Giants", "NYG"), ("Jaguars", "JAX"), ("Jets", "NYJ"), ("Lions", "DET"),
   ("Packers", "GB"), ("Panthers", "CAR"), ("Patriots", "NE"), ("Raiders", "LV"),
   ("Rams", "LAR"), ("Ravens", "BAL"), ("Saints", "NO"), ("Seahawks", "SEA"),
   ("Steelers", "PIT"), ("Texans", "HOU"), ("Titans", "TEN"), ("Vikings", "MIN")]

/-- The JS property read `NAME_TO_ABBR[t]`. -/
def nameToAbbrLookup (t : String) : Option String :=
  (NAME_TO_ABBR.find? (fun p => p.1 == t)).map (fun p => p.2)

/-- A JS object used as a string-keyed win table. -/
abbrev WinsMap := String → Option Int

/-- `Object.fromEntries(Object.values(NAME_TO_ABBR).map(a => [a, 0]))`
(worker.js line 133). -/
def winsInit : WinsMap :=
  (NAME_TO_ABBR.map Prod.snd).foldl (fun m a => fun x => if x = a then some 0 else m x)
    (fun _ => none)

/-- The per-competition body of the aggregation loops (worker.js lines
144-150): find the competitor flagged `winner === true`; if there is one and
its `team.abbreviation` is truthy, increment that abbreviation's count
(`winsByAbbr[abbr] = (winsByAbbr[abbr] || 0) + 1`; the stored values are
integers, so `x || 0` agrees with `getD 0`). -/
def addWin (m : WinsMap) (c : Competition) : WinsMap :=
  match c.competitors.find? (fun comp => comp.winner == some true) with
  | none => m
  | some w =>
    match strTruthy (w.team.bind Team.abbreviation) with
    | none => m
    | some a => fun x => if x = a then some ((m a).getD 0 + 1) else m x

/-- `computeTeamWinsForSeason` (worker.js lines 129-155). The `seasonYear`
argument is accepted and ignored exactly as in the source. -/
def computeTeamWinsForSeason (seasonYear : Int) (u : Upstream) : WinsMap :=
  let entries := (getRegularSeasonWeekEntries u.scoreboard).regularEntries
  let _ := seasonYear
  entries.foldl
    (fun m e =>
      let weekData := u.scoreboardByDates (dateRangeKey e)
      weekData.events.foldl (fun m ev => ev.competitions.foldl addWin m) m)
    winsInit

/-! ## Standings builder (`buildResponse`) -/

/-- A `{team, abbr, wins}` row. -/
structure TeamRow where
  team : String
  abbr : String
  wins : Int
deriving DecidableEq

/-- A `{owner, total_wins, teams}` standings row. -/
structure StandingsRow where
  owner : String
  total_wins : Int
  teams : List TeamRow
deriving DecidableEq

/-- The `{standings, unowned}` response core of `buildResponse`. -/
structure PoolResponse where
  standings : List StandingsRow
  unowned : List TeamRow
deriving DecidableEq

/-- The row builder shared by owners and unowned teams (worker.js lines
160-163 and 169-172): `abbr = NAME_TO_ABBR[t] || t`, `wins = winsByAbbr[abbr]
?? 0` (nullish coalescing, hence exactly `getD 0`). -/
def teamRowFor (winsByAbbr : WinsMap) (t : String) : TeamRow :=
  let abbr := jsOrStrD (nameToAbbrLookup t) t
  { team := t, abbr := abbr, wins := (winsByAbbr abbr).getD 0 }

/-- The standings comparator (worker.js line 167):
`b.total_wins - a.total_wins || a.owner.localeCompare(b.owner)`. -/
def standingsCmp (a b : StandingsRow) : Int :=
  jsOrInt (b.total_wins - a.total_wins) (strCmpInt a.owner b.owner)

/-- Nonpositive-comparator relation handed to the stable sort. -/
def standingsLe (a b : StandingsRow) : Bool :=
  decide (standingsCmp a b ≤ 0)

/-- `buildResponse` (worker.js lines 157-175). -/
def buildResponse (config : OwnershipConfig) (winsByAbbr : WinsMap) : PoolResponse :=
  let standings := config.owners.map (fun p =>
    let teamRows := p.2.map (teamRowFor winsByAbbr)
    { owner := p.1
      total_wins := teamRows.foldl (fun a b => a + b.wins) 0
      teams := teamRows : StandingsRow })
  { standings := standings.mergeSort standingsLe
    unowned := config.unowned.map (teamRowFor winsByAbbr) }

/-! ## TTL cache layer and the two endpoints -/

/-- A KV cache entry `{expires_at_ms, payload}` as stored by the worker; a
foreign entry may lack the timestamp field. -/
structure CacheEntry (π : Type) where
  expires_at_ms : Option Int
  payload : π
deriving DecidableEq

/-- The KV store binding, as a partial map from keys to parsed JSON entries. -/
abbrev KvStore (π : Type) := String → Option (CacheEntry π)

/-- The JS hit test on an entry already read from KV (worker.js lines 199 and
239): `cached && cached.expires_at_ms && Date.now() < cached.expires_at_ms`
(the middle conjunct is a number-truthiness test, so `0` fails it). -/
def entryFresh {π : Type} (c : CacheEntry π) (now : Int) : Bool :=
  match c.expires_at_ms with
  | none => false
  | some x => if x = 0 then false else decide (now < x)

/-- `POOL_KV.put` of a JSON entry. -/
def kvPut {π : Type} (kv : KvStore π) (key : String) (e : CacheEntry π) : KvStore π :=
  fun k => if k = key then some e else kv k

/-- Outcome of serving one request through the cache: the payload sent back,
whether it came from the cache, and the KV store afterwards. -/
structure ServeResult (π : Type) where
  payload : π
  servedFromCache : Bool
  kv : KvStore π

/-- The cache-wrapping pattern shared verbatim by the two endpoints
(worker.js lines 197-227 and 237-262): return a fresh cached payload as-is;
otherwise use the freshly computed payload and store it with expiry
`Date.now() + ttlMin*60*1000`. `compute` is the recomputed payload; it is
used only on a miss. -/
def serveCached {π : Type} (kv : KvStore π) (key : String) (now ttlMin : Int)
    (compute : π) : ServeResult π :=
  let stored : CacheEntry π :=
    { expires_at_ms := some (now + ttlMin * 60 * 1000), payload := compute }
  match kv key with
  | some c =>
    if entryFresh c now then
      { payload := c.payload, servedFromCache := true, kv := kv }
    else
      { payload := compute, servedFromCache := false, kv := kvPut kv key stored }
  | none =>
    { payload := compute, servedFromCache := false, kv := kvPut kv key stored }

/-- The standings response payload (worker.js lines 250-255). -/
structure StandingsPayload where
  season : Option Int
  generated_at_ct : String
  cache_ttl_minutes : Int
  standings : List StandingsRow
  unowned : List TeamRow
deriving DecidableEq

/-- The standings payload computed on a cache miss (worker.js lines 247-255);
`ct` is the `Intl` civil-time formatter applied to the current time and
`config.season || 2025` feeds the (unused) season argument. -/
def standingsPayload (ct : Int → String) (u : Upstream) (config : OwnershipConfig)
    (now ttlMin : Int) : StandingsPayload :=
  let winsByAbbr := computeTeamWinsForSeason ((numTruthy config.season).getD 2025) u
  let core := buildResponse config winsByAbbr
  { season := config.season, generated_at_ct := ct now, cache_ttl_minutes := ttlMin
    standings := core.standings, unowned := core.unowned }

/-- The `/api/standings` handler after config load (worker.js lines 234-262),
with the fixed cache key. -/
def serveStandings (ct : Int → String) (u : Upstream) (config : OwnershipConfig)
    (kv : KvStore StandingsPayload) (now ttlMin : Int) : ServeResult StandingsPayload :=
  serveCached kv "standings_cache_v1" now ttlMin (standingsPayload ct u config now ttlMin)

/-- The week response payload (worker.js lines 207-213); the grid fields are
spread into the object, kept here as a nested value. -/
structure WeekPayload where
  season : Option Int
  generated_at_ct : String
  cache_ttl_minutes : Int
  timezone : String
  grid : WeekGrid
deriving DecidableEq

/-- The per-week cache key `week_cache_v1_${weekParam || "auto"}`
(worker.js line 195). -/
def weekCacheKey (weekParam : Option String) : String :=
  "week_cache_v1_" ++ jsOrStrD weekParam "auto"

/-- The week payload computed on a cache miss (worker.js lines 206-213). -/
def weekPayload (parse : String → Int) (ct : Int → String) (u : Upstream)
    (weekParam : Option String) (config : OwnershipConfig) (now ttlMin : Int) : WeekPayload :=
  { season := config.season, generated_at_ct := ct now, cache_ttl_minutes := ttlMin
    timezone := jsOrStrD config.timezone "America/Chicago"
    grid := fetchWeekGrid parse u weekParam config }

/-- The `/api/week` handler after config load (worker.js lines 193-227). -/
def serveWeek (parse : String → Int) (ct : Int → String) (u : Upstream)
    (weekParam : Option String) (config : OwnershipConfig)
    (kv : KvStore WeekPayload) (now ttlMin : Int) : ServeResult WeekPayload :=
  serveCached kv (weekCacheKey weekParam) now ttlMin
    (weekPayload parse ct u weekParam config now ttlMin)

/-! ## Derived characterizations used by the aggregation theorems -/

/-- The truthy `winner.team.abbreviation` of a competition's flagged winner,
if any: the situation in which `computeTeamWinsForSeason` increments a count. -/
def winnerAbbr (c : Competition) : Option String :=
  match c.competitors.find? (fun comp => comp.winner == some true) with
  | none => none
  | some w => strTruthy (w.team.bind Team.abbreviation)

/-- Every truthy winner abbreviation, one per counted competition, in the
order the aggregation loops visit them. -/
def seasonWinnerAbbrs (u : Upstream) : List String :=
  (getRegularSeasonWeekEntries u.scoreboard).regularEntries.flatMap (fun e =>
    (u.scoreboardByDates (dateRangeKey e)).events.flatMap (fun ev =>
      ev.competitions.filterMap winnerAbbr))

/-- Replay a list of winner abbreviations onto a win table, one increment per
element (the loop body of worker.js line 149 in isolation). -/
def applyIncs (m : WinsMap) (l : List String) : WinsMap :=
  l.foldl (fun m a => fun x => if x = a then some ((m a).getD 0 + 1) else m x) m

/-! ## Concrete fixtures for witnesses and counterexamples -/

/-- An empty scoreboard document. -/
def emptyRoot : ScoreboardRoot :=
  { leagues := [], week := none, events := [] }

/-- An upstream with no calendar and no games. -/
def emptyUpstream : Upstream :=
  { scoreboard := emptyRoot, scoreboardByDates := fun _ => emptyRoot }

/-- A one-owner configuration: Alice owns the Ravens, the Ravens are also
listed as unowned. -/
def cfgRavensBoth : OwnershipConfig :=
  { season := some 2025, timezone := none
    owners := [("Alice", ["Ravens"])], unowned := ["Ravens"] }

/-- A one-owner, one-unowned configuration. -/
def cfgAliceBears : OwnershipConfig :=
  { season := some 2025, timezone := none
    owners := [("Alice", ["Ravens"])], unowned := ["Bears"] }

/-- Calendar entry for week 1 of the fixtures. -/
def entryWeek1 : CalendarEntry :=
  { label := some "1", startDate := some "2025-09-04T07:00Z"
    endDate := some "2025-09-10T07:00Z" }

/-- Calendar entry whose label is the digit string `"0"`. -/
def entryWeek0 : CalendarEntry :=
  { label := some "0", startDate := some "2025-01-01T08:00Z"
    endDate := some "2025-01-08T08:00Z" }

/-- A scoreboard root whose calendar holds exactly `entryWeek0`. -/
def rootWeek0 : ScoreboardRoot :=
  { leagues := [{ calendarHeadEntries := some [entryWeek0], calendarEntries := none }]
    week := none, events := [] }

/-- A competitor flagged as winner whose team carries a mascot name but no
abbreviation. -/
def ravensWinnerNoAbbr : Competitor :=
  { homeAway := some "home", winner := some true
    team := some { shortDisplayName := some "Ravens"
                   name := some "Baltimore Ravens", abbreviation := none } }

/-- The losing side of the fixture game, with an abbreviation. -/
def bearsLoser : Competitor :=
  { homeAway := some "away", winner := some false
    team := some { shortDisplayName := some "Bears"
                   name := some "Chicago Bears", abbreviation := some "CHI" } }

/-- A completed fixture game: Bears at Ravens, Ravens flagged winner. -/
def gameRavensBeatBears : Competition :=
  { date := some "2025-09-07T17:00Z", competitors := [bearsLoser, ravensWinnerNoAbbr] }

/-- The scoreboard returned for the week-1 date range of the fixtures. -/
def rootWeek1Games : ScoreboardRoot :=
  { leagues := [], week := none
    events := [{ date := none, competitions := [gameRavensBeatBears] }] }

/-- An upstream whose calendar has the single week-1 window and whose week-1
results hold the fixture game. -/
def upstreamOneWeek : Upstream :=
  { scoreboard :=
      { leagues := [{ calendarHeadEntries := some [entryWeek1], calendarEntries := none }]
        week := some { number := some 1 }, events := [] }
    scoreboardByDates := fun k =>
      if k = "20250904-20250910" then rootWeek1Games else emptyRoot }

/-! # Theorems

## Lemmas on the team-to-owner map -/

theorem foldl_mapSet_const (ts : List String) (m : OwnerMap) (o t : String) :
    (ts.foldl (fun m t => mapSet m t o) m) t = if t ∈ ts then some o else m t := by
  induction ts generalizing m with
  | nil => simp
  | cons x xs ih =>
    simp only [List.foldl_cons, ih, List.mem_cons]
    by_cases hx : t = x
    · subst hx
      by_cases hm : t ∈ xs <;> simp [hm, mapSet]
    · by_cases hm : t ∈ xs <;> simp [hm, hx, mapSet]

theorem ownersStep_apply (m : OwnerMap) (p : String × List String) (t : String) :
    ownersStep m p t = if t ∈ p.2 then some p.1 else m t :=
  foldl_mapSet_const p.2 m p.1 t

theorem ownersFoldAux_not_mem (ps : List (String × List String)) (m : OwnerMap)
    (t : String) (h : ∀ p ∈ ps, t ∉ p.2) :
    (ps.foldl ownersStep m) t = m t := by
  induction ps generalizing m with
  | nil => rfl
  | cons p ps ih =>
    simp only [List.foldl_cons]
    rw [ih _ (fun q hq => h q (List.mem_cons_of_mem p hq)), ownersStep_apply,
      if_neg (h p (List.mem_cons_self p ps))]

theorem ownersFoldAux_some (ps : List (String × List String)) (m : OwnerMap)
    (t : String) (h : ∃ p ∈ ps, t ∈ p.2) :
    ∃ p, p ∈ ps ∧ t ∈ p.2 ∧ (ps.foldl ownersStep m) t = some p.1 := by
  induction ps generalizing m with
  | nil => simp at h
  | cons p ps ih =>
    simp only [List.foldl_cons]
    by_cases hin : ∃ q ∈ ps, t ∈ q.2
    · obtain ⟨q, hq, hqt, hval⟩ := ih (ownersStep m p) hin
      exact ⟨q, List.mem_cons_of_mem p hq, hqt, hval⟩
    · push_neg at hin
      have hpt : t ∈ p.2 := by
        obtain ⟨q, hq, hqt⟩ := h
        rcases List.mem_cons.mp hq with rfl | hq'
        · exact hqt
        · exact absurd hqt (hin q hq')
      refine ⟨p, List.mem_cons_self p ps, hpt, ?_⟩
      rw [ownersFoldAux_not_mem ps _ t hin, ownersStep_apply, if_pos hpt]

theorem ownersFoldAux_some_inv (ps : List (String × List String)) (m : OwnerMap)
    (t v : String) (h : (ps.foldl ownersStep m) t = some v) :
    (∃ p ∈ ps, p.1 = v ∧ t ∈ p.2) ∨ m t = some v := by
  induction ps generalizing m with
  | nil => exact Or.inr h
  | cons p ps ih =>
    simp only [List.foldl_cons] at h
    rcases ih (ownersStep m p) h with hcase | hcase
    · obtain ⟨q, hq, hqv, hqt⟩ := hcase
      exact Or.inl ⟨q, List.mem_cons_of_mem p hq, hqv, hqt⟩
    · rw [ownersStep_apply] at hcase
      by_cases hpt : t ∈ p.2
      · rw [if_pos hpt] at hcase
        exact Or.inl ⟨p, List.mem_cons_self p ps, Option.some_injective _ hcase, hpt⟩
      · rw [if_neg hpt] at hcase
        exact Or.inr hcase

theorem fillUnowned_cons (m : OwnerMap) (u : String) (us : List String) :
    fillUnowned m (u :: us) =
      fillUnowned (if (m u).isSome then m else mapSet m u "Unowned") us := rfl

theorem fillUnowned_of_isSome (us : List String) (m : OwnerMap) (t : String)
    (h : (m t).isSome) : fillUnowned m us t = m t := by
  induction us generalizing m with
  | nil => rfl
  | cons u us ih =>
    rw [fillUnowned_cons]
    by_cases hu : (m u).isSome
    · rw [if_pos hu]
      exact ih m h
    · rw [if_neg hu]
      have htu : t ≠ u := by
        intro e
        exact hu (e ▸ h)
      have hset : mapSet m u "Unowned" t = m t := by
        simp [mapSet, htu]
      rw [ih (mapSet m u "Unowned") (hset ▸ h), hset]

theorem fillUnowned_of_none (us : List String) (m : OwnerMap) (t : String)
    (h : m t = none) :
    fillUnowned m us t = if t ∈ us then some "Unowned" else none := by
  induction us generalizing m with
  | nil => simpa [fillUnowned]
  | cons u us ih =>
    rw [fillUnowned_cons]
    by_cases hu : (m u).isSome
    · have htu : t ≠ u := by
        intro e
        rw [← e, h] at hu
        simp at hu
      rw [if_pos hu, ih m h]
      simp [List.mem_cons, htu]
    · rw [if_neg hu]
      by_cases htu : t = u
      · subst htu
        have hset : (mapSet m t "Unowned" t).isSome := by simp [mapSet]
        rw [fillUnowned_of_isSome us _ t hset]
        simp [mapSet]
      · have hset : mapSet m u "Unowned" t = none := by simp [mapSet, htu, h]
        rw [ih _ hset]
        simp [List.mem_cons, htu]

/-- C1: for every ownership configuration in which the sentinel name is not
itself used as an owner, a team listed both in some owner's roster and in
`unowned` is mapped by `buildTeamToOwner` exactly as by the owners-only first
loop — the unowned fallback never overwrites it — and its value is the name
of an owner whose roster contains it, never the sentinel `"Unowned"`. -/
theorem buildTeamToOwner_explicit_owner_wins (config : OwnershipConfig) (t : String)
    (howned : ∃ p ∈ config.owners, t ∈ p.2) (_hun : t ∈ config.unowned)
    (hres : ∀ p ∈ config.owners, p.1 ≠ "Unowned") :
    buildTeamToOwner config t = ownersFlattenMap config.owners t ∧
    ∃ p, p ∈ config.owners ∧ t ∈ p.2 ∧
      buildTeamToOwner config t = some p.1 ∧ p.1 ≠ "Unowned" := by
  obtain ⟨p, hp, hpt, hval⟩ := ownersFoldAux_some config.owners (fun _ => none) t howned
  have hflat : ownersFlattenMap config.owners t = some p.1 := hval
  have hsome : (ownersFlattenMap config.owners t).isSome := by
    rw [hflat]; rfl
  have heq : buildTeamToOwner config t = ownersFlattenMap config.owners t :=
    fillUnowned_of_isSome config.unowned _ t hsome
  exact ⟨heq, p, hp, hpt, heq.trans hflat, hres p hp⟩

/-- Witness for C1 at a concrete configuration: Alice owns the Ravens and the
Ravens are also listed in `unowned`; the map still says Alice. -/
theorem buildTeamToOwner_explicit_owner_wins_witness :
    buildTeamToOwner cfgRavensBoth "Ravens" = ownersFlattenMap cfgRavensBoth.owners "Ravens" ∧
    ∃ p, p ∈ cfgRavensBoth.owners ∧ "Ravens" ∈ p.2 ∧
      buildTeamToOwner cfgRavensBoth "Ravens" = some p.1 ∧ p.1 ≠ "Unowned" :=
  buildTeamToOwner_explicit_owner_wins cfgRavensBoth "Ravens"
    (by decide) (by decide) (by decide)

theorem jsOrStrD_eq_of_ne (o : Option String) (d v : String)
    (h : jsOrStrD o d = v) (hne : v ≠ d) : o = some v := by
  match o with
  | none =>
    simp only [jsOrStrD, strTruthy] at h
    exact absurd h.symm hne
  | some s =>
    by_cases hs : s = ""
    · subst hs
      simp [jsOrStrD, strTruthy] at h
      exact absurd h.symm hne
    · simp [jsOrStrD, strTruthy, hs] at h
      rw [h]

theorem buildTeamToOwner_sentinel_inv (config : OwnershipConfig) (t : String)
    (hres : ∀ p ∈ config.owners, p.1 ≠ "Unowned")
    (h : buildTeamToOwner config t = some "Unowned") : t ∈ config.unowned := by
  rcases hflat : ownersFlattenMap config.owners t with _ | v
  · have := fillUnowned_of_none config.unowned _ t hflat
    rw [buildTeamToOwner, this] at h
    by_cases hm : t ∈ config.unowned
    · exact hm
    · rw [if_neg hm] at h
      exact absurd h (by simp)
  · have hsome : (ownersFlattenMap config.owners t).isSome := by rw [hflat]; rfl
    rw [buildTeamToOwner, fillUnowned_of_isSome config.unowned _ t hsome, hflat] at h
    have hv : v = "Unowned" := Option.some_injective _ h
    rcases ownersFoldAux_some_inv config.owners _ t v hflat with ⟨p, hp, hpv, _⟩ | hbase
    · exact absurd (hpv.trans hv) (hres p hp)
    · exact absurd hbase (by simp)

theorem fetchWeekGrid_games_mem (parse : String → Int) (u : Upstream)
    (weekParam : Option String) (config : OwnershipConfig) (entry : CalendarEntry)
    (hfind : resolvedEntry u weekParam = some entry) (r : GameRow) :
    r ∈ (fetchWeekGrid parse u weekParam config).games ↔
      ∃ ev ∈ (u.scoreboardByDates (dateRangeKey entry)).events,
        rowOfEvent (buildTeamToOwner config) ev = some r := by
  simp [fetchWeekGrid, hfind, List.mem_mergeSort, List.mem_filterMap]

/-- C10: with the sentinel name not used as an owner name, (1) a team listed
neither in any roster nor in `unowned` has no key in the team-to-owner map
and displays as `"-"` under the fallback `teamToOwner[name] || "-"`; (2) the
both-unowned drop rule skips a resolvable matchup only when both normalized
team names are listed in `unowned`; (3) a resolvable matchup between two
entirely unconfigured teams is retained in the week grid and shows `"-"` for
both owners. -/
theorem unconfigured_team_dash (config : OwnershipConfig)
    (hres : ∀ p ∈ config.owners, p.1 ≠ "Unowned") :
    (∀ t, (∀ p ∈ config.owners, t ∉ p.2) → t ∉ config.unowned →
       buildTeamToOwner config t = none ∧
       jsOrStrD (buildTeamToOwner config t) "-" = "-") ∧
    (∀ (ev : Event) (comp : Competition) (away home : Competitor),
       ev.competitions.head? = some comp →
       comp.competitors.find? (fun c => c.homeAway == some "away") = some away →
       comp.competitors.find? (fun c => c.homeAway == some "home") = some home →
       rowOfEvent (buildTeamToOwner config) ev = none →
       normalizeTeamName away.team ∈ config.unowned ∧
       normalizeTeamName home.team ∈ config.unowned) ∧
    (∀ (parse : String → Int) (u : Upstream) (weekParam : Option String)
       (entry : CalendarEntry) (ev : Event) (comp : Competition) (away home : Competitor),
       resolvedEntry u weekParam = some entry →
       ev ∈ (u.scoreboardByDates (dateRangeKey entry)).events →
       ev.competitions.head? = some comp →
       comp.competitors.find? (fun c => c.homeAway == some "away") = some away →
       comp.competitors.find? (fun c => c.homeAway == some "home") = some home →
       (∀ p ∈ config.owners, normalizeTeamName away.team ∉ p.2) →
       normalizeTeamName away.team ∉ config.unowned →
       (∀ p ∈ config.owners, normalizeTeamName home.team ∉ p.2) →
       normalizeTeamName home.team ∉ config.unowned →
       ∃ r ∈ (fetchWeekGrid parse u weekParam config).games,
         rowOfEvent (buildTeamToOwner config) ev = some r ∧
         r.awayOwner = "-" ∧ r.homeOwner = "-") := by
  have habsent : ∀ t, (∀ p ∈ config.owners, t ∉ p.2) → t ∉ config.unowned →
      buildTeamToOwner config t = none := by
    intro t hown hun
    have hflat : ownersFlattenMap config.owners t = none :=
      ownersFoldAux_not_mem config.owners _ t hown
    rw [buildTeamToOwner, fillUnowned_of_none config.unowned _ t hflat, if_neg hun]
  refine ⟨?_, ?_, ?_⟩
  · intro t hown hun
    refine ⟨habsent t hown hun, ?_⟩
    rw [habsent t hown hun]
    rfl
  · intro ev comp away home hcomp haway hhome hnone
    simp only [rowOfEvent, hcomp, haway, hhome] at hnone
    split at hnone
    · next hcond =>
      obtain ⟨ha, hh⟩ := hcond
      have ha' : buildTeamToOwner config (normalizeTeamName away.team) = some "Unowned" :=
        jsOrStrD_eq_of_ne _ _ _ ha (by decide)
      have hh' : buildTeamToOwner config (normalizeTeamName home.team) = some "Unowned" :=
        jsOrStrD_eq_of_ne _ _ _ hh (by decide)
      exact ⟨buildTeamToOwner_sentinel_inv config _ hres ha',
        buildTeamToOwner_sentinel_inv config _ hres hh'⟩
    · exact absurd hnone (by simp)
  · intro parse u weekParam entry ev comp away home hfind hev hcomp haway hhome
      hao hau hho hhu
    have hadash : jsOrStrD (buildTeamToOwner config (normalizeTeamName away.team)) "-" = "-" := by
      rw [habsent _ hao hau]; rfl
    have hhdash : jsOrStrD (buildTeamToOwner config (normalizeTeamName home.team)) "-" = "-" := by
      rw [habsent _ hho hhu]; rfl
    have hrow : ∃ r, rowOfEvent (buildTeamToOwner config) ev = some r ∧
        r.awayOwner = "-" ∧ r.homeOwner = "-" := by
      simp only [rowOfEvent, hcomp, haway, hhome, hadash, hhdash]
      rw [if_neg (by simp)]
      exact ⟨_, rfl, rfl, rfl⟩
    obtain ⟨r, hr, hra, hrh⟩ := hrow
    exact ⟨r, (fetchWeekGrid_games_mem parse u weekParam config entry hfind r).mpr
      ⟨ev, hev, hr⟩, hr, hra, hrh⟩

/-- Witness for C10: in the Alice/Bears configuration, the Packers appear in
no roster and not in `unowned`, so they have no map entry and display `"-"`. -/
theorem unconfigured_team_dash_witness :
    buildTeamToOwner cfgAliceBears "Packers" = none ∧
    jsOrStrD (buildTeamToOwner cfgAliceBears "Packers") "-" = "-" :=
  (unconfigured_team_dash cfgAliceBears (by decide)).1 "Packers" (by decide) (by decide)

/-! ## Cache-layer lemmas -/

theorem entryFresh_iff {π : Type} (c : CacheEntry π) (now : Int) (hnow : 0 ≤ now) :
    entryFresh c now = true ↔ ∃ x, c.expires_at_ms = some x ∧ now < x := by
  rcases c with ⟨ex, p⟩
  rcases ex with _ | x
  · simp [entryFresh]
  · by_cases hx : x = 0
    · subst hx
      simp [entryFresh]
      omega
    · simp [entryFresh, hx]

/-- C6: for both endpoints (each is literally the shared cache wrapper at its
key), a cached entry is served exactly when it exists, carries an expiry, and
the current time is strictly before it; a hit returns the stored payload and
leaves the store untouched; a miss returns the recomputed payload, overwrites
only its own key with expiry `now + ttlMin*60*1000`, and touches no other key
(no eviction). -/
theorem serveCached_ttl_semantics {π : Type} (kv : KvStore π) (key : String)
    (now ttlMin : Int) (compute : π) (hnow : 0 ≤ now) :
    ((serveCached kv key now ttlMin compute).servedFromCache = true ↔
       ∃ c x, kv key = some c ∧ c.expires_at_ms = some x ∧ now < x) ∧
    (∀ c, kv key = some c →
       (serveCached kv key now ttlMin compute).servedFromCache = true →
       (serveCached kv key now ttlMin compute).payload = c.payload ∧
       (serveCached kv key now ttlMin compute).kv = kv) ∧
    ((serveCached kv key now ttlMin compute).servedFromCache = false →
       (serveCached kv key now ttlMin compute).payload = compute ∧
       (serveCached kv key now ttlMin compute).kv key =
         some { expires_at_ms := some (now + ttlMin * 60 * 1000), payload := compute } ∧
       ∀ k, k ≠ key → (serveCached kv key now ttlMin compute).kv k = kv k) ∧
    (∀ (ct : Int → String) (u : Upstream) (config : OwnershipConfig)
       (kvS : KvStore StandingsPayload),
       serveStandings ct u config kvS now ttlMin =
         serveCached kvS "standings_cache_v1" now ttlMin
           (standingsPayload ct u config now ttlMin)) ∧
    (∀ (parse : String → Int) (ct : Int → String) (u : Upstream)
       (weekParam : Option String) (config : OwnershipConfig)
       (kvW : KvStore WeekPayload),
       serveWeek parse ct u weekParam config kvW now ttlMin =
         serveCached kvW (weekCacheKey weekParam) now ttlMin
           (weekPayload parse ct u weekParam config now ttlMin)) := by
  refine ⟨?_, ?_, ?_, fun ct u config kvS => rfl,
    fun parse ct u weekParam config kvW => rfl⟩
  · rcases hk : kv key with _ | c
    · simp [serveCached, hk]
    · cases hf : entryFresh c now with
      | true =>
        constructor
        · intro _
          obtain ⟨x, hx, hlt⟩ := (entryFresh_iff c now hnow).mp hf
          exact ⟨c, x, rfl, hx, hlt⟩
        · intro _
          simp [serveCached, hk, hf]
      | false =>
        constructor
        · intro h
          rw [show (serveCached kv key now ttlMin compute).servedFromCache = false by
            simp [serveCached, hk, hf]] at h
          exact absurd h (by simp)
        · rintro ⟨c', x, hc', hx, hlt⟩
          obtain rfl : c' = c := (Option.some_injective _ hc').symm
          exact absurd ((entryFresh_iff c' now hnow).mpr ⟨x, hx, hlt⟩)
            (by rw [hf]; simp)
  · intro c hc hserved
    rcases hk : kv key with _ | c'
    · rw [hk] at hc
      exact absurd hc (by simp)
    · rw [hk] at hc
      obtain rfl : c' = c := Option.some_injective _ hc
      cases hf : entryFresh c' now with
      | true => simp [serveCached, hk, hf]
      | false =>
        rw [show (serveCached kv key now ttlMin compute).servedFromCache = false by
          simp [serveCached, hk, hf]] at hserved
        exact absurd hserved (by simp)
  · intro hmiss
    rcases hk : kv key with _ | c
    · refine ⟨by simp [serveCached, hk], by simp [serveCached, hk, kvPut], ?_⟩
      intro k hkk
      simp [serveCached, hk, kvPut, hkk]
    · cases hf : entryFresh c now with
      | true =>
        rw [show (serveCached kv key now ttlMin compute).servedFromCache = true by
          simp [serveCached, hk, hf]] at hmiss
        exact absurd hmiss (by simp)
      | false =>
        refine ⟨by simp [serveCached, hk, hf], by simp [serveCached, hk, hf, kvPut], ?_⟩
        intro k hkk
        simp [serveCached, hk, hf, kvPut, hkk]

/-- Witness for C6 at a concrete instantiation: an empty integer store at
time 0 misses, stores the computed value under its key, and reports the
stored expiry. -/
theorem serveCached_ttl_semantics_witness :
    ((serveCached (fun _ => none) "k" 0 30 (7 : Int)).servedFromCache = true ↔
       ∃ c x, (fun _ => none : KvStore Int) "k" = some c ∧
         c.expires_at_ms = some x ∧ (0 : Int) < x) ∧
    (∀ c, (fun _ => none : KvStore Int) "k" = some c →
       (serveCached (fun _ => none) "k" 0 30 (7 : Int)).servedFromCache = true →
       (serveCached (fun _ => none) "k" 0 30 (7 : Int)).payload = c.payload ∧
       (serveCached (fun _ => none) "k" 0 30 (7 : Int)).kv = fun _ => none) ∧
    ((serveCached (fun _ => none) "k" 0 30 (7 : Int)).servedFromCache = false →
       (serveCached (fun _ => none) "k" 0 30 (7 : Int)).payload = 7 ∧
       (serveCached (fun _ => none) "k" 0 30 (7 : Int)).kv "k" =
         some { expires_at_ms := some (0 + 30 * 60 * 1000), payload := (7 : Int) } ∧
       ∀ k, k ≠ "k" → (serveCached (fun _ => none) "k" 0 30 (7 : Int)).kv k = none) ∧
    (∀ (ct : Int → String) (u : Upstream) (config : OwnershipConfig)
       (kvS : KvStore StandingsPayload),
       serveStandings ct u config kvS 0 30 =
         serveCached kvS "standings_cache_v1" 0 30 (standingsPayload ct u config 0 30)) ∧
    (∀ (parse : String → Int) (ct : Int → String) (u : Upstream)
       (weekParam : Option String) (config : OwnershipConfig)
       (kvW : KvStore WeekPayload),
       serveWeek parse ct u weekParam config kvW 0 30 =
         serveCached kvW (weekCacheKey weekParam) 0 30
           (weekPayload parse ct u weekParam config 0 30)) :=
  serveCached_ttl_semantics (fun _ => none) "k" 0 30 (7 : Int) (by decide)

/-- C7: when the standings key is absent, a first request at `t1 ≥ 0` misses
and recomputes, and a second request at any `t2` in `[t1, t1 + TTL)` is
served from the cache with the byte-identical stored payload, performing no
recomputation and leaving the store unchanged. -/
theorem standings_cache_idempotent (ct : Int → String) (u : Upstream)
    (config : OwnershipConfig) (kv : KvStore StandingsPayload) (t1 t2 ttlMin : Int)
    (h0 : 0 ≤ t1) (h12 : t1 ≤ t2)
    (habsent : kv "standings_cache_v1" = none)
    (hwithin : t2 < t1 + ttlMin * 60 * 1000) :
    (serveStandings ct u config kv t1 ttlMin).servedFromCache = false ∧
    (serveStandings ct u config (serveStandings ct u config kv t1 ttlMin).kv t2 ttlMin).payload
      = (serveStandings ct u config kv t1 ttlMin).payload ∧
    (serveStandings ct u config (serveStandings ct u config kv t1 ttlMin).kv t2 ttlMin).servedFromCache
      = true ∧
    (serveStandings ct u config (serveStandings ct u config kv t1 ttlMin).kv t2 ttlMin).kv
      = (serveStandings ct u config kv t1 ttlMin).kv := by
  have hfirst : serveStandings ct u config kv t1 ttlMin =
      { payload := standingsPayload ct u config t1 ttlMin
        servedFromCache := false
        kv := kvPut kv "standings_cache_v1"
          { expires_at_ms := some (t1 + ttlMin * 60 * 1000)
            payload := standingsPayload ct u config t1 ttlMin } } := by
    simp [serveStandings, serveCached, habsent]
  set kv1 := (serveStandings ct u config kv t1 ttlMin).kv with hkv1
  have hread : kv1 "standings_cache_v1" =
      some { expires_at_ms := some (t1 + ttlMin * 60 * 1000)
             payload := standingsPayload ct u config t1 ttlMin } := by
    rw [hkv1, hfirst]
    simp [kvPut]
  have hfreshness : entryFresh
      (⟨some (t1 + ttlMin * 60 * 1000), standingsPayload ct u config t1 ttlMin⟩ :
        CacheEntry StandingsPayload) t2 = true := by
    have hne : t1 + ttlMin * 60 * 1000 ≠ 0 := by omega
    simp only [entryFresh, if_neg hne, decide_eq_true_eq]
    exact hwithin
  have hsecond : serveStandings ct u config kv1 t2 ttlMin =
      { payload := standingsPayload ct u config t1 ttlMin
        servedFromCache := true
        kv := kv1 } := by
    simp only [serveStandings, serveCached, hread, hfreshness, if_true]
  refine ⟨by rw [hfirst], ?_, ?_, ?_⟩
  · rw [hsecond, hfirst]
  · rw [hsecond]
  · rw [hsecond]

/-- Witness for C7: an empty store, first call at time 0, second at time 1,
TTL 30 minutes. -/
theorem standings_cache_idempotent_witness :
    (serveStandings (fun _ => "") emptyUpstream cfgAliceBears (fun _ => none) 0 30).servedFromCache
      = false ∧
    (serveStandings (fun _ => "") emptyUpstream cfgAliceBears
        (serveStandings (fun _ => "") emptyUpstream cfgAliceBears (fun _ => none) 0 30).kv
        1 30).payload
      = (serveStandings (fun _ => "") emptyUpstream cfgAliceBears (fun _ => none) 0 30).payload ∧
    (serveStandings (fun _ => "") emptyUpstream cfgAliceBears
        (serveStandings (fun _ => "") emptyUpstream cfgAliceBears (fun _ => none) 0 30).kv
        1 30).servedFromCache = true ∧
    (serveStandings (fun _ => "") emptyUpstream cfgAliceBears
        (serveStandings (fun _ => "") emptyUpstream cfgAliceBears (fun _ => none) 0 30).kv
        1 30).kv
      = (serveStandings (fun _ => "") emptyUpstream cfgAliceBears (fun _ => none) 0 30).kv :=
  standings_cache_idempotent (fun _ => "") emptyUpstream cfgAliceBears (fun _ => none)
    0 1 30 (by decide) (by decide) rfl (by decide)

/-! ## Week resolver theorems -/

theorem strTruthy_eq_some (o : Option String) (s : String) :
    strTruthy o = some s ↔ o = some s ∧ s ≠ "" := by
  cases o with
  | none => simp [strTruthy]
  | some t =>
    by_cases ht : t = ""
    · subst ht
      simp only [strTruthy, if_pos rfl]
      constructor
      · intro h
        exact absurd h (by simp)
      · rintro ⟨h, hs⟩
        injection h with h
        exact absurd h.symm hs
    · simp only [strTruthy, if_neg ht, Option.some_inj]
      constructor
      · intro h
        exact ⟨by rw [h], h ▸ ht⟩
      · rintro ⟨h, _⟩
        exact h

/-- C8 (amended): every retained calendar entry has a nonempty all-digit
label string and nonempty start and end dates, and at most 18 entries are
retained. (The regex `/^\d+$/` also accepts digit strings denoting zero, so
"positive integer string" is weakened to "digit string".) -/
theorem getRegularSeasonWeekEntries_filter_cap (root : ScoreboardRoot) :
    (getRegularSeasonWeekEntries root).regularEntries.length ≤ 18 ∧
    ∀ e ∈ (getRegularSeasonWeekEntries root).regularEntries,
      (∃ s, e.label = some s ∧ s ≠ "" ∧ s.toList.all (fun c => c.isDigit) = true) ∧
      (∃ d, e.startDate = some d ∧ d ≠ "") ∧
      (∃ d, e.endDate = some d ∧ d ≠ "") := by
  constructor
  · simp only [getRegularSeasonWeekEntries, List.length_take]
    exact min_le_left _ _
  · intro e he
    simp only [getRegularSeasonWeekEntries] at he
    have he' : e ∈ List.filter keepEntry
        ((jsOrOpt ((root.leagues.head?).bind League.calendarHeadEntries)
          ((root.leagues.head?).bind League.calendarEntries)).getD []) :=
      List.mem_of_mem_take he
    have hk : keepEntry e = true := (List.mem_filter.mp he').2
    rcases hl : strTruthy e.label with _ | s
    · rw [keepEntry, hl] at hk
      exact absurd hk (by simp)
    · rw [keepEntry, hl] at hk
      simp only [Bool.and_eq_true] at hk
      obtain ⟨⟨hdig, hstart⟩, hend⟩ := hk
      obtain ⟨hls, hse⟩ := (strTruthy_eq_some e.label s).mp hl
      have hdig' := hdig
      simp only [isDigitString, Bool.and_eq_true, decide_eq_true_eq] at hdig'
      refine ⟨⟨s, hls, hse, hdig'.2⟩, ?_, ?_⟩
      · rcases hsd : strTruthy e.startDate with _ | d
        · rw [hsd] at hstart
          exact absurd hstart (by simp)
        · obtain ⟨hd, hdne⟩ := (strTruthy_eq_some e.startDate d).mp hsd
          exact ⟨d, hd, hdne⟩
      · rcases hed : strTruthy e.endDate with _ | d
        · rw [hed] at hend
          exact absurd hend (by simp)
        · obtain ⟨hd, hdne⟩ := (strTruthy_eq_some e.endDate d).mp hed
          exact ⟨d, hd, hdne⟩

/-- Counterexample for C8 as stated: a calendar entry labelled `"0"` carries
both dates and is retained, yet `"0"` denotes zero, which is not a positive
integer. -/
theorem getRegularSeasonWeekEntries_zero_label_cex :
    (getRegularSeasonWeekEntries rootWeek0).regularEntries = [entryWeek0] ∧
    entryWeek0.label = some "0" ∧ jsStringToNumber "0" = 0 := by
  refine ⟨?_, rfl, ?_⟩ <;> decide

/-- C9: when the `week` query parameter is a truthy string whose numeric
value matches no retained calendar label, `fetchWeekGrid` returns an empty
game list with that number echoed back and no window label or date
metadata. -/
theorem fetchWeekGrid_unmatched_week (parse : String → Int) (u : Upstream)
    (weekParam : Option String) (config : OwnershipConfig) (s : String)
    (hs : strTruthy weekParam = some s)
    (hno : ∀ e ∈ (getRegularSeasonWeekEntries u.scoreboard).regularEntries,
      entryLabelNumber e ≠ jsStringToNumber s) :
    fetchWeekGrid parse u weekParam config =
      { week := jsStringToNumber s
        currentWeek := (getRegularSeasonWeekEntries u.scoreboard).currentWeek
        games := [], week_label := none, startDate := none, endDate := none } := by
  have hweek : resolvedWeek u weekParam = jsStringToNumber s := by
    rw [resolvedWeek, hs]
  have hfind : resolvedEntry u weekParam = none := by
    rw [resolvedEntry]
    apply List.find?_eq_none.mpr
    intro e he
    rw [hweek]
    simpa using hno e he
  simp [fetchWeekGrid, hfind, hweek]

/-- Witness for C9: requesting week 99 against a calendar whose only window
is labelled 1. -/
theorem fetchWeekGrid_unmatched_week_witness :
    fetchWeekGrid (fun _ => 0) upstreamOneWeek (some "99") cfgAliceBears =
      { week := jsStringToNumber "99"
        currentWeek := (getRegularSeasonWeekEntries upstreamOneWeek.scoreboard).currentWeek
        games := [], week_label := none, startDate := none, endDate := none } :=
  fetchWeekGrid_unmatched_week (fun _ => 0) upstreamOneWeek (some "99") cfgAliceBears
    "99" rfl (by decide)

/-! ## Comparator lemmas and the two sort theorems -/

theorem jsOrInt_nonpos (x y : Int) : jsOrInt x y ≤ 0 ↔ x < 0 ∨ (x = 0 ∧ y ≤ 0) := by
  rw [jsOrInt]
  by_cases hx : x = 0
  · simp [hx]
  · simp only [if_neg hx]
    omega

theorem jsOrInt_neg (x y : Int) : jsOrInt x y < 0 ↔ x < 0 ∨ (x = 0 ∧ y < 0) := by
  rw [jsOrInt]
  by_cases hx : x = 0
  · simp [hx]
  · simp only [if_neg hx]
    omega

theorem jsOrInt_eq_zero (x y : Int) : jsOrInt x y = 0 ↔ x = 0 ∧ y = 0 := by
  rw [jsOrInt]
  by_cases hx : x = 0 <;> simp [hx]

theorem strCmpInt_neg (a b : String) : strCmpInt a b < 0 ↔ a < b := by
  rw [strCmpInt]
  by_cases h1 : a < b
  · simp [h1]
  · by_cases h2 : b < a <;> simp [h1, h2]

theorem strCmpInt_eq_zero (a b : String) : strCmpInt a b = 0 ↔ a = b := by
  rw [strCmpInt]
  by_cases h1 : a < b
  · simp [h1]
    exact ne_of_lt h1
  · by_cases h2 : b < a
    · simp [h1, h2]
      exact (ne_of_lt h2).symm
    · simp [h1, h2]
      exact le_antisymm (not_lt.mp h2) (not_lt.mp h1)

theorem strCmpInt_nonpos (a b : String) : strCmpInt a b ≤ 0 ↔ a ≤ b := by
  constructor
  · intro h
    rcases lt_or_eq_of_le h with h' | h'
    · exact le_of_lt ((strCmpInt_neg a b).mp h')
    · exact le_of_eq ((strCmpInt_eq_zero a b).mp h')
  · intro h
    rcases lt_or_eq_of_le h with h' | h'
    · exact le_of_lt ((strCmpInt_neg a b).mpr h')
    · exact le_of_eq ((strCmpInt_eq_zero a b).mpr h')

theorem gameLe_iff (parse : String → Int) (a b : GameRow) :
    gameLe parse a b = true ↔
      rowTs parse a < rowTs parse b ∨
      (rowTs parse a = rowTs parse b ∧
        (a.away < b.away ∨ (a.away = b.away ∧ a.home ≤ b.home))) := by
  rw [gameLe, decide_eq_true_eq, gameCmp, jsOrInt_nonpos, jsOrInt_neg, jsOrInt_eq_zero,
    strCmpInt_neg, strCmpInt_eq_zero, strCmpInt_nonpos]
  constructor
  · rintro ((h | ⟨h0, h1⟩) | ⟨⟨h0, h1⟩, h2⟩)
    · left; omega
    · exact Or.inr ⟨by omega, Or.inl h1⟩
    · exact Or.inr ⟨by omega, Or.inr ⟨h1, h2⟩⟩
  · rintro (h | ⟨h0, h1 | ⟨h1, h2⟩⟩)
    · left; left; omega
    · exact Or.inl (Or.inr ⟨by omega, h1⟩)
    · exact Or.inr ⟨⟨by omega, h1⟩, h2⟩

theorem gameLe_trans (parse : String → Int) (a b c : GameRow)
    (hab : gameLe parse a b = true) (hbc : gameLe parse b c = true) :
    gameLe parse a c = true := by
  rw [gameLe_iff] at *
  rcases hab with h | ⟨h0, h1⟩
  · rcases hbc with h' | ⟨h0', _⟩
    · exact Or.inl (lt_trans h h')
    · exact Or.inl (h0' ▸ h)
  · rcases hbc with h' | ⟨h0', h1'⟩
    · exact Or.inl (h0 ▸ h')
    · refine Or.inr ⟨h0.trans h0', ?_⟩
      rcases h1 with h1 | ⟨he, hh⟩
      · rcases h1' with h1' | ⟨he', _⟩
        · exact Or.inl (lt_trans h1 h1')
        · exact Or.inl (he' ▸ h1)
      · rcases h1' with h1' | ⟨he', hh'⟩
        · exact Or.inl (he ▸ h1')
        · exact Or.inr ⟨he.trans he', le_trans hh hh'⟩

theorem gameLe_total (parse : String → Int) (a b : GameRow) :
    (gameLe parse a b || gameLe parse b a) = true := by
  rw [Bool.or_eq_true, gameLe_iff, gameLe_iff]
  rcases lt_trichotomy (rowTs parse a) (rowTs parse b) with h | h | h
  · exact Or.inl (Or.inl h)
  · rcases lt_trichotomy a.away b.away with h' | h' | h'
    · exact Or.inl (Or.inr ⟨h, Or.inl h'⟩)
    · rcases le_total a.home b.home with h'' | h''
      · exact Or.inl (Or.inr ⟨h, Or.inr ⟨h', h''⟩⟩)
      · exact Or.inr (Or.inr ⟨h.symm, Or.inr ⟨h'.symm, h''⟩⟩)
    · exact Or.inr (Or.inr ⟨h.symm, Or.inl h'⟩)
  · exact Or.inr (Or.inl h)

/-- C3: every games list produced by `fetchWeekGrid` is sorted: adjacent (in
fact all ordered) pairs have non-decreasing kickoff timestamps — a row with
no truthy kickoff string getting timestamp 0 — and rows with equal timestamps
are ordered by away-team name, then home-team name. Holds for every
interpretation `parse` of `Date.parse`. -/
theorem fetchWeekGrid_games_sorted (parse : String → Int) (u : Upstream)
    (weekParam : Option String) (config : OwnershipConfig) :
    (fetchWeekGrid parse u weekParam config).games.Pairwise
      (fun a b => rowTs parse a ≤ rowTs parse b ∧
        (rowTs parse a = rowTs parse b →
          a.away < b.away ∨ (a.away = b.away ∧ a.home ≤ b.home))) := by
  have hconv : ∀ a b : GameRow, gameLe parse a b = true →
      rowTs parse a ≤ rowTs parse b ∧
      (rowTs parse a = rowTs parse b →
        a.away < b.away ∨ (a.away = b.away ∧ a.home ≤ b.home)) := by
    intro a b h
    rw [gameLe_iff] at h
    rcases h with h | ⟨h0, h1⟩
    · exact ⟨le_of_lt h, fun he => absurd he (ne_of_lt h)⟩
    · exact ⟨le_of_eq h0, fun _ => h1⟩
  cases hfind : resolvedEntry u weekParam with
  | none => simp [fetchWeekGrid, hfind]
  | some entry =>
    simp only [fetchWeekGrid, hfind]
    exact (List.sorted_mergeSort (gameLe_trans parse) (gameLe_total parse) _).imp
      (fun h => hconv _ _ h)

theorem standingsLe_iff (a b : StandingsRow) :
    standingsLe a b = true ↔
      b.total_wins < a.total_wins ∨
      (a.total_wins = b.total_wins ∧ a.owner ≤ b.owner) := by
  rw [standingsLe, decide_eq_true_eq, standingsCmp, jsOrInt_nonpos, strCmpInt_nonpos]
  constructor
  · rintro (h | ⟨h0, h1⟩)
    · left; omega
    · exact Or.inr ⟨by omega, h1⟩
  · rintro (h | ⟨h0, h1⟩)
    · left; omega
    · exact Or.inr ⟨by omega, h1⟩

theorem standingsLe_trans (a b c : StandingsRow)
    (hab : standingsLe a b = true) (hbc : standingsLe b c = true) :
    standingsLe a c = true := by
  rw [standingsLe_iff] at *
  rcases hab with h | ⟨h0, h1⟩
  · rcases hbc with h' | ⟨h0', _⟩
    · exact Or.inl (by omega)
    · exact Or.inl (by omega)
  · rcases hbc with h' | ⟨h0', h1'⟩
    · exact Or.inl (by omega)
    · exact Or.inr ⟨by omega, le_trans h1 h1'⟩

theorem standingsLe_total (a b : StandingsRow) :
    (standingsLe a b || standingsLe b a) = true := by
  rw [Bool.or_eq_true, standingsLe_iff, standingsLe_iff]
  rcases lt_trichotomy a.total_wins b.total_wins with h | h | h
  · exact Or.inr (Or.inl h)
  · rcases le_total a.owner b.owner with h' | h'
    · exact Or.inl (Or.inr ⟨h, h'⟩)
    · exact Or.inr (Or.inr ⟨h.symm, h'⟩)
  · exact Or.inl (Or.inl h)

/-- C4: the standings array of `buildResponse` is sorted by total wins
descending, equal totals ordered by owner name ascending: every ordered pair
of rows satisfies the descending-wins/ascending-name relation. -/
theorem buildResponse_standings_sorted (config : OwnershipConfig) (winsByAbbr : WinsMap) :
    (buildResponse config winsByAbbr).standings.Pairwise
      (fun a b => b.total_wins < a.total_wins ∨
        (a.total_wins = b.total_wins ∧ a.owner ≤ b.owner)) := by
  simp only [buildResponse]
  exact (List.sorted_mergeSort standingsLe_trans standingsLe_total _).imp
    (fun h => (standingsLe_iff _ _).mp h)

/-- C2: for a resolved week window, a game row is in the grid exactly when
some upstream event yields it, and an event yields a row exactly when it has
a first competition with both an away and a home competitor and the two
resolved owners are not both `"Unowned"` (a both-`"Unowned"` matchup, and
only such a matchup among resolvable ones, is dropped). -/
theorem fetchWeekGrid_row_presence (parse : String → Int) (u : Upstream)
    (weekParam : Option String) (config : OwnershipConfig) (entry : CalendarEntry)
    (hfind : resolvedEntry u weekParam = some entry) :
    (∀ r, r ∈ (fetchWeekGrid parse u weekParam config).games ↔
       ∃ ev ∈ (u.scoreboardByDates (dateRangeKey entry)).events,
         rowOfEvent (buildTeamToOwner config) ev = some r) ∧
    (∀ (m : OwnerMap) (ev : Event),
       (∃ r, rowOfEvent m ev = some r) ↔
         ∃ comp away home,
           ev.competitions.head? = some comp ∧
           comp.competitors.find? (fun c => c.homeAway == some "away") = some away ∧
           comp.competitors.find? (fun c => c.homeAway == some "home") = some home ∧
           ¬(jsOrStrD (m (normalizeTeamName away.team)) "-" = "Unowned" ∧
             jsOrStrD (m (normalizeTeamName home.team)) "-" = "Unowned")) := by
  constructor
  · exact fetchWeekGrid_games_mem parse u weekParam config entry hfind
  · intro m ev
    constructor
    · rintro ⟨r, hr⟩
      rcases hcomp : ev.competitions.head? with _ | comp
      · simp only [rowOfEvent, hcomp] at hr
        exact Option.noConfusion hr
      · rcases haway : comp.competitors.find? (fun c => c.homeAway == some "away")
          with _ | away
        · simp only [rowOfEvent, hcomp, haway] at hr
          exact Option.noConfusion hr
        · rcases hhome : comp.competitors.find? (fun c => c.homeAway == some "home")
            with _ | home
          · simp only [rowOfEvent, hcomp, haway, hhome] at hr
            exact Option.noConfusion hr
          · simp only [rowOfEvent, hcomp, haway, hhome] at hr
            split at hr
            · exact absurd hr (by simp)
            · next hcond => exact ⟨comp, away, home, rfl, haway, hhome, hcond⟩
    · rintro ⟨comp, away, home, hcomp, haway, hhome, hcond⟩
      simp only [rowOfEvent, hcomp, haway, hhome]
      rw [if_neg hcond]
      exact ⟨_, rfl⟩

/-- Witness for C2: in the one-week fixture, the Bears-at-Ravens game (Bears
unowned, Ravens owned by Alice) appears in the week-1 grid. -/
theorem fetchWeekGrid_row_presence_witness :
    (⟨some "2025-09-07T17:00Z", "Bears", "Ravens", some "Ravens",
        "Unowned", "Alice", "Alice"⟩ : GameRow)
      ∈ (fetchWeekGrid (fun _ => 0) upstreamOneWeek (some "1") cfgAliceBears).games :=
  ((fetchWeekGrid_row_presence (fun _ => 0) upstreamOneWeek (some "1") cfgAliceBears
      entryWeek1 (by decide)).1 _).mpr
    ⟨{ date := none, competitions := [gameRavensBeatBears] }, by decide, by decide⟩

/-! ## Win-aggregation lemmas -/

theorem foldl_setZero (l : List String) (m : WinsMap) (x : String) :
    (l.foldl (fun m a => fun y => if y = a then some 0 else m y) m) x =
      if x ∈ l then some 0 else m x := by
  induction l generalizing m with
  | nil => simp
  | cons b l ih =>
    rw [List.foldl_cons, ih]
    by_cases hb : x = b
    · subst hb
      by_cases hm : x ∈ l <;> simp [hm]
    · by_cases hm : x ∈ l <;> simp [hm, hb]

theorem winsInit_apply (x : String) :
    winsInit x = if x ∈ NAME_TO_ABBR.map Prod.snd then some 0 else none := by
  rw [winsInit, foldl_setZero]

theorem applyIncs_append (m : WinsMap) (l1 l2 : List String) :
    applyIncs m (l1 ++ l2) = applyIncs (applyIncs m l1) l2 :=
  List.foldl_append _ _ l1 l2

theorem addWin_eq_applyIncs (m : WinsMap) (c : Competition) :
    addWin m c = applyIncs m (winnerAbbr c).toList := by
  rcases hw : c.competitors.find? (fun comp => comp.winner == some true) with _ | w
  · simp [addWin, winnerAbbr, hw, applyIncs]
  · rcases ha : strTruthy (w.team.bind Team.abbreviation) with _ | a <;>
      simp [addWin, winnerAbbr, hw, ha, applyIncs]

theorem foldl_addWin_eq (cs : List Competition) (m : WinsMap) :
    cs.foldl addWin m = applyIncs m (cs.filterMap winnerAbbr) := by
  induction cs generalizing m with
  | nil => rfl
  | cons c cs ih =>
    rw [List.foldl_cons, addWin_eq_applyIncs, ih, ← applyIncs_append,
      List.filterMap_cons]
    rcases h : winnerAbbr c with _ | a <;> simp [h]

theorem foldl_events_eq (evs : List Event) (m : WinsMap) :
    evs.foldl (fun m ev => ev.competitions.foldl addWin m) m =
      applyIncs m (evs.flatMap (fun ev => ev.competitions.filterMap winnerAbbr)) := by
  induction evs generalizing m with
  | nil => rfl
  | cons ev evs ih =>
    rw [List.foldl_cons, foldl_addWin_eq, ih, ← applyIncs_append, List.flatMap_cons]

theorem foldl_entries_eq (es : List CalendarEntry) (u : Upstream) (m : WinsMap) :
    es.foldl (fun m e =>
        (u.scoreboardByDates (dateRangeKey e)).events.foldl
          (fun m ev => ev.competitions.foldl addWin m) m) m =
      applyIncs m (es.flatMap (fun e =>
        (u.scoreboardByDates (dateRangeKey e)).events.flatMap
          (fun ev => ev.competitions.filterMap winnerAbbr))) := by
  induction es generalizing m with
  | nil => rfl
  | cons e es ih =>
    rw [List.foldl_cons, foldl_events_eq, ih, ← applyIncs_append, List.flatMap_cons]

theorem computeTeamWinsForSeason_eq (seasonYear : Int) (u : Upstream) :
    computeTeamWinsForSeason seasonYear u = applyIncs winsInit (seasonWinnerAbbrs u) :=
  foldl_entries_eq _ u winsInit

theorem applyIncs_apply_some (l : List String) (m : WinsMap) (a : String) (v : Int)
    (h : m a = some v) : applyIncs m l a = some (v + (l.count a : Int)) := by
  induction l generalizing m v with
  | nil => simp [applyIncs, h]
  | cons x l ih =>
    rw [show applyIncs m (x :: l) =
      applyIncs (fun y => if y = x then some ((m x).getD 0 + 1) else m y) l from rfl]
    by_cases hax : a = x
    · subst hax
      have h' : (fun y => if y = a then some ((m a).getD 0 + 1) else m y) a
          = some (v + 1) := by simp [h]
      rw [ih _ _ h', List.count_cons_self]
      congr 1
      push_cast
      ring
    · have h' : (fun y => if y = x then some ((m x).getD 0 + 1) else m y) a
          = some v := by simp [hax, h]
      rw [ih _ _ h', List.count_cons_of_ne hax]

theorem applyIncs_apply_none (l : List String) (m : WinsMap) (a : String)
    (h : m a = none) :
    applyIncs m l a = if a ∈ l then some ((l.count a : Int)) else none := by
  induction l generalizing m with
  | nil => simp [applyIncs, h]
  | cons x l ih =>
    rw [show applyIncs m (x :: l) =
      applyIncs (fun y => if y = x then some ((m x).getD 0 + 1) else m y) l from rfl]
    by_cases hax : a = x
    · subst hax
      have h' : (fun y => if y = a then some ((m a).getD 0 + 1) else m y) a
          = some 1 := by simp [h]
      rw [applyIncs_apply_some _ _ _ _ h', List.count_cons_self,
        if_pos (List.mem_cons_self a l)]
      congr 1
      push_cast
      ring
    · have h' : (fun y => if y = x then some ((m x).getD 0 + 1) else m y) a
          = none := by simp [hax, h]
      rw [ih _ h', List.count_cons_of_ne hax]
      by_cases hm : a ∈ l <;> simp [List.mem_cons, hax, hm]

/-- C5 (amended): the season win table is keyed by the winner's provider
abbreviation only — a flagged winner whose `team.abbreviation` is absent or
empty is skipped entirely, with no fallback to the static name-to-code
table — it is pre-seeded with every known code at zero (so zero-win teams
appear), and each key's value is exactly the number of competitions, across
all resolved week windows, whose first winner-flagged competitor carries that
abbreviation. -/
theorem computeTeamWinsForSeason_counts (seasonYear : Int) (u : Upstream) (a : String) :
    computeTeamWinsForSeason seasonYear u a =
      if a ∈ NAME_TO_ABBR.map Prod.snd ∨ a ∈ seasonWinnerAbbrs u
      then some (((seasonWinnerAbbrs u).count a : Int))
      else none := by
  rw [computeTeamWinsForSeason_eq]
  by_cases hk : a ∈ NAME_TO_ABBR.map Prod.snd
  · have hinit : winsInit a = some 0 := by rw [winsInit_apply, if_pos hk]
    rw [applyIncs_apply_some _ _ _ _ hinit, if_pos (Or.inl hk)]
    simp
  · have hinit : winsInit a = none := by rw [winsInit_apply, if_neg hk]
    rw [applyIncs_apply_none _ _ _ hinit]
    by_cases hw : a ∈ seasonWinnerAbbrs u
    · rw [if_pos hw, if_pos (Or.inr hw)]
    · rw [if_neg hw, if_neg (by tauto)]

/-- Counterexample for C5 as stated: a completed fixture game whose flagged
winner (the Ravens) has no provider abbreviation; the static table maps
"Ravens" to "BAL", yet "BAL" stays at zero wins — the code performs no
fallback to the name-to-code table when the abbreviation is absent. -/
theorem computeTeamWins_no_fallback_cex :
    nameToAbbrLookup "Ravens" = some "BAL" ∧
    gameRavensBeatBears.competitors.find? (fun c => c.winner == some true)
      = some ravensWinnerNoAbbr ∧
    ravensWinnerNoAbbr.team.bind Team.abbreviation = none ∧
    normalizeTeamName ravensWinnerNoAbbr.team = "Ravens" ∧
    computeTeamWinsForSeason 2025 upstreamOneWeek "BAL" = some 0 := by
  refine ⟨by decide, by decide, rfl, by decide, by decide⟩
